import Mathlib

/-!
Shallow embedding of the minidump_bn Binary Ninja loader plugin
(src/view.rs), covering:

* the container type detector (`MinidumpBinaryViewType::is_valid_for`),
* the platform resolver (`MinidumpBinaryView::translate_minidump_platform`),
* the segment collector and address-space builder (`MinidumpBinaryView::init`),
* the constant view attributes (`BinaryViewBase for MinidumpBinaryView`).

Machine integers (u64) are modelled as `Nat` with explicit reduction
modulo `2 ^ 64` wherever the Rust code performs u64 addition.  Fallible
operations of the external `minidump` crate (stream lookups, container
parsing) are modelled as `Option`-valued fields of an abstract
`Container`; the host platform registry (`Platform::by_name`) is an
abstract parameter `String → Option String`.  A Rust panic is modelled
as a distinguished outcome of `init`.
-/

namespace Minidump

/-- `2 ^ 64`, the modulus of Rust u64 arithmetic. -/
def U64 : Nat := 2 ^ 64

/-! ### Container type detector (src/view.rs lines 61-66) -/

/-- Model of `BinaryView::read_into_vec(vec, offset, len)`: reads up to
`len` bytes starting at `offset`; a short read yields fewer or zero
bytes and never reads past the available data. -/
def read_into_vec (data : List Nat) (offset len : Nat) : List Nat :=
  (data.drop offset).take len

/-- The 4-byte ASCII signature `MDMP`. -/
def mdmpSignature : List Nat := [0x4D, 0x44, 0x4D, 0x50]

/-- Model of `MinidumpBinaryViewType::is_valid_for`: read the first 4
bytes and compare with `MDMP`. -/
def is_valid_for (data : List Nat) : Bool :=
  read_into_vec data 0 4 == mdmpSignature

/-! ### Platform resolver (src/view.rs lines 211-253) -/

/-- CPU architectures of `minidump::system_info::Cpu`. -/
inductive Cpu
  | X86
  | X86_64
  | Ppc
  | Ppc64
  | Sparc
  | Arm
  | Arm64
  | Mips
  | Mips64
  | Unknown (v : Nat)
  deriving DecidableEq, Repr

/-- Operating systems of `minidump::system_info::Os`. -/
inductive Os
  | Windows
  | MacOs
  | Ios
  | Linux
  | Solaris
  | Android
  | Ps3
  | NaCl
  | Unknown (v : Nat)
  deriving DecidableEq, Repr

/-- Byte orders of `minidump::Endian`. -/
inductive Endian
  | Little
  | Big
  deriving DecidableEq, Repr

/-- Model of `MinidumpBinaryView::translate_minidump_platform`.  The
host platform registry `Platform::by_name` is abstracted as the
parameter `by_name`; the function performs exactly the source's nested
match on OS, CPU and (for PowerPC on Linux) byte order. -/
def translate_minidump_platform (by_name : String → Option String)
    (minidump_cpu_arch : Cpu) (minidump_endian : Endian) (minidump_os : Os) :
    Option String :=
  match minidump_os with
  | Os.Windows =>
    match minidump_cpu_arch with
    | Cpu.Arm64 => by_name "windows-aarch64"
    | Cpu.Arm => by_name "windows-armv7"
    | Cpu.X86 => by_name "windows-x86"
    | Cpu.X86_64 => by_name "windows-x86_64"
    | _ => none
  | Os.MacOs =>
    match minidump_cpu_arch with
    | Cpu.Arm64 => by_name "mac-aarch64"
    | Cpu.Arm => by_name "mac-armv7"
    | Cpu.X86 => by_name "mac-x86"
    | Cpu.X86_64 => by_name "mac-x86_64"
    | _ => none
  | Os.Linux =>
    match minidump_cpu_arch with
    | Cpu.Arm64 => by_name "linux-aarch64"
    | Cpu.Arm => by_name "linux-armv7"
    | Cpu.X86 => by_name "linux-x86"
    | Cpu.X86_64 => by_name "linux-x86_64"
    | Cpu.Ppc =>
      match minidump_endian with
      | Endian.Little => by_name "linux-ppc32_le"
      | Endian.Big => by_name "linux-ppc32"
    | Cpu.Ppc64 =>
      match minidump_endian with
      | Endian.Little => by_name "linux-ppc64_le"
      | Endian.Big => by_name "linux-ppc64"
    | _ => none
  | Os.NaCl => none
  | Os.Android => none
  | Os.Ios => none
  | Os.Ps3 => none
  | Os.Solaris => none
  | Os.Unknown _ => none

/-! ### Segment data (src/view.rs lines 86-105) -/

/-- Half-open interval, modelling `std::ops::Range<u64>` (`end` is a
Lean keyword, so the field is named `stop`). -/
structure URange where
  start : Nat
  stop : Nat
  deriving DecidableEq, Repr

/-- Model of `SegmentData`. -/
structure SegmentData where
  rva_range : URange
  mapped_addr_range : URange
  deriving DecidableEq, Repr

/-- Model of `SegmentData::from_addresses_and_size`; the u64 additions
wrap modulo `2 ^ 64`. -/
def SegmentData.from_addresses_and_size (rva mapped_addr size : Nat) :
    SegmentData :=
  { rva_range := { start := rva, stop := (rva + size) % U64 }
    mapped_addr_range :=
      { start := mapped_addr, stop := (mapped_addr + size) % U64 } }

/-! ### Memory-list streams (external `minidump` crate, consumed by init) -/

/-- An entry of the typed 32-bit memory list (`MinidumpMemory`), as
consumed by the loop at src/view.rs lines 151-163: its own file offset
(`desc.memory.rva`), virtual base address and size. -/
structure Mem32 where
  rva : Nat
  base_address : Nat
  size : Nat
  deriving DecidableEq, Repr

/-- An entry of the typed 64-bit memory list (`MinidumpMemory64`), as
consumed by the loop at src/view.rs lines 178-191: virtual base address
and size (no per-entry file offset). -/
structure Mem64 where
  base_address : Nat
  size : Nat
  deriving DecidableEq, Repr

/-- Decode 8 little-endian bytes into an integer. -/
def u64_from_le_bytes : List Nat → Nat
  | [] => 0
  | b :: bs => b % 256 + 256 * u64_from_le_bytes bs

/-- Model of `u64::from_le_bytes(raw_stream[8..16].try_into().unwrap())`
at src/view.rs line 172: `none` models the Rust panic raised by the
slice index `raw_stream[8..16]` when the raw stream holds fewer than 16
bytes. -/
def read_base_rva (raw : List Nat) : Option Nat :=
  if 16 ≤ raw.length then some (u64_from_le_bytes ((raw.drop 8).take 8))
  else none

/-! ### Segment collector (src/view.rs lines 147-195) -/

/-- 32-bit path (src/view.rs lines 150-166): one descriptor per entry,
read directly from the entry. -/
def collect32 (entries : List Mem32) : List SegmentData :=
  entries.map fun e =>
    SegmentData.from_addresses_and_size e.rva e.base_address e.size

/-- 64-bit path (src/view.rs lines 175-194): a cursor starts at the
stream's base RVA and advances by each entry's size (u64 addition,
wrapping) in iteration order. -/
def collect64 : Nat → List Mem64 → List SegmentData
  | _, [] => []
  | current_rva, e :: es =>
    SegmentData.from_addresses_and_size current_rva e.base_address e.size ::
      collect64 ((current_rva + e.size) % U64) es

/-! ### Address-space builder (src/view.rs lines 118-209) -/

/-- Abstract view of a candidate container, as exposed to `init` by the
external `minidump` crate: `parse_ok` is whether `Minidump::read`
succeeds; each stream lookup is an `Option` whose `none` means the
corresponding `get_stream` / `get_raw_stream` call returned `Err`.
`memory_list32` is the 32-bit list in the order `by_addr()` iterates it;
`memory_list64` is the 64-bit list in the order `iter()` iterates it;
`raw_stream64` is the raw byte range of the 64-bit list stream. -/
structure Container where
  parse_ok : Bool
  endian : Endian
  system_info : Option (Cpu × Os)
  memory_list32 : Option (List Mem32)
  raw_stream64 : Option (List Nat)
  memory_list64 : Option (List Mem64)

/-- The mutable state of the output binary view that `init` configures:
the default platform (set by `set_default_platform`) and the registered
segments (added by `add_segment`, in order). -/
structure ViewState where
  platform : Option String
  segments : List SegmentData
  deriving DecidableEq, Repr

/-- How `init` terminates: `ok` models `Ok(())`, `err` models `Err(())`,
and `panic` models the Rust panic raised by the out-of-bounds slice
index at src/view.rs line 172. -/
inductive Outcome
  | ok
  | err
  | panic
  deriving DecidableEq, Repr

/-- The 32-bit contribution to `segment_data`: zero entries when the
stream is absent or fails to parse (src/view.rs lines 150-166). -/
def seg32_of (c : Container) : List SegmentData :=
  match c.memory_list32 with
  | some entries => collect32 entries
  | none => []

/-- The 64-bit contribution to `segment_data` given the decoded base
RVA: zero entries when the typed list fails to parse (src/view.rs lines
175-194). -/
def seg64_of (c : Container) (base_rva : Nat) : List SegmentData :=
  match c.memory_list64 with
  | some entries => collect64 base_rva entries
  | none => []

/-- Model of `MinidumpBinaryView::init` (src/view.rs lines 118-209).
Returns the final view state together with the outcome.  Segments are
registered on the view only after both collection paths finish, so on
the line-172 panic the platform has been set but no segment has been
registered, and on every `Err` return nothing has been applied. -/
def init (by_name : String → Option String) (c : Container) :
    ViewState × Outcome :=
  if c.parse_ok then
    match c.system_info with
    | none => (⟨none, []⟩, Outcome.err)
    | some (cpu, os) =>
      match translate_minidump_platform by_name cpu c.endian os with
      | none => (⟨none, []⟩, Outcome.err)
      | some platform =>
        match c.raw_stream64 with
        | none => (⟨some platform, seg32_of c⟩, Outcome.ok)
        | some raw =>
          match read_base_rva raw with
          | none => (⟨some platform, []⟩, Outcome.panic)
          | some base_rva =>
            (⟨some platform, seg32_of c ++ seg64_of c base_rva⟩, Outcome.ok)
  else
    (⟨none, []⟩, Outcome.err)

/-! ### Constant view attributes (src/view.rs lines 262-274) -/

/-- Endianness values of `binaryninja::Endianness`. -/
inductive Endianness
  | LittleEndian
  | BigEndian
  deriving DecidableEq, Repr

/-- The constructed view, wrapping the state produced by `init`. -/
structure MinidumpBinaryView where
  inner : ViewState

/-- Model of `BinaryViewBase::address_size` for `MinidumpBinaryView`. -/
def MinidumpBinaryView.address_size (_ : MinidumpBinaryView) : Nat := 0

/-- Model of `BinaryViewBase::default_endianness` for
`MinidumpBinaryView`. -/
def MinidumpBinaryView.default_endianness (_ : MinidumpBinaryView) :
    Endianness :=
  Endianness.LittleEndian

/-- Model of `BinaryViewBase::entry_point` for `MinidumpBinaryView`. -/
def MinidumpBinaryView.entry_point (_ : MinidumpBinaryView) : Nat := 0

/-! ### Helper functions for stating the claims -/

/-- Sum of the sizes of the first `i` entries of a 64-bit list. -/
def sumSizesTo (es : List Mem64) (i : Nat) : Nat :=
  ((es.take i).map Mem64.size).sum

/-- The SegmentDescriptor invariant stated by the spec: both ranges have
the same length and that length is positive. -/
def segInvariant (s : SegmentData) : Prop :=
  s.rva_range.stop - s.rva_range.start =
    s.mapped_addr_range.stop - s.mapped_addr_range.start ∧
  0 < s.rva_range.stop - s.rva_range.start

instance : Inhabited SegmentData := ⟨⟨⟨0, 0⟩, ⟨0, 0⟩⟩⟩

instance : Inhabited Mem64 := ⟨⟨0, 0⟩⟩

instance : Inhabited Mem32 := ⟨⟨0, 0, 0⟩⟩

/-! ### Helper lemmas -/

theorem collect64_length (es : List Mem64) :
    ∀ B, (collect64 B es).length = es.length := by
  induction es with
  | nil => intro B; rfl
  | cons e es ih =>
    intro B
    simp only [collect64, List.length_cons, ih]

theorem sumSizesTo_zero (es : List Mem64) : sumSizesTo es 0 = 0 := rfl

theorem sumSizesTo_succ_cons (e : Mem64) (es : List Mem64) (i : Nat) :
    sumSizesTo (e :: es) (i + 1) = e.size + sumSizesTo es i := by
  simp [sumSizesTo, List.take_succ_cons]

/-- Closed form of the 64-bit collector at index `i`, under the
hypothesis that the cursor never wraps. -/
theorem collect64_getD (es : List Mem64) :
    ∀ B i, i < es.length → B + (es.map Mem64.size).sum < U64 →
    (collect64 B es).getD i default =
      { rva_range :=
          { start := B + sumSizesTo es i, stop := B + sumSizesTo es (i + 1) }
        mapped_addr_range :=
          { start := (es.getD i default).base_address
            stop :=
              ((es.getD i default).base_address + (es.getD i default).size) %
                U64 } } := by
  induction es with
  | nil => intro B i h _; simp at h
  | cons e es ih =>
    intro B i h hsum
    have hBe : B + e.size < U64 := by
      have : B + e.size ≤ B + ((e :: es).map Mem64.size).sum := by
        simp only [List.map_cons, List.sum_cons]
        omega
      omega
    match i with
    | 0 =>
      simp only [collect64, List.getD_cons_zero, List.getD_cons_zero,
        SegmentData.from_addresses_and_size, sumSizesTo_zero,
        sumSizesTo_succ_cons, Nat.add_zero, Nat.mod_eq_of_lt hBe]
    | Nat.succ i =>
      have hcur : (B + e.size) % U64 = B + e.size := Nat.mod_eq_of_lt hBe
      have hi : i < es.length := by simpa using h
      have hsum2 : (B + e.size) + (es.map Mem64.size).sum < U64 := by
        have : B + ((e :: es).map Mem64.size).sum =
            (B + e.size) + (es.map Mem64.size).sum := by
          simp only [List.map_cons, List.sum_cons]; omega
        omega
      simp only [collect64, List.getD_cons_succ, hcur, ih (B + e.size) i hi hsum2,
        sumSizesTo_succ_cons, Nat.add_assoc]

/-- The 32-bit collector written with the wrap-around reductions
discharged, under no-overflow bounds on each entry. -/
theorem collect32_eq_of_no_overflow (es : List Mem32)
    (h : ∀ e ∈ es, e.rva + e.size < U64 ∧ e.base_address + e.size < U64) :
    collect32 es = es.map fun e =>
      { rva_range := { start := e.rva, stop := e.rva + e.size }
        mapped_addr_range :=
          { start := e.base_address, stop := e.base_address + e.size } } := by
  refine List.map_congr_left fun e he => ?_
  obtain ⟨h1, h2⟩ := h e he
  simp [SegmentData.from_addresses_and_size, Nat.mod_eq_of_lt h1,
    Nat.mod_eq_of_lt h2]

/-- Every descriptor produced by the 64-bit collector from
positive-size, non-wrapping entries has equal positive range
lengths. -/
theorem collect64_segInvariant (es : List Mem64) :
    ∀ B, B + (es.map Mem64.size).sum < U64 →
    (∀ e ∈ es, 0 < e.size ∧ e.base_address + e.size < U64) →
    ∀ s ∈ collect64 B es, segInvariant s := by
  induction es with
  | nil => intro B _ _ s hs; simp [collect64] at hs
  | cons e es ih =>
    intro B hsum hall s hs
    have hBe : B + e.size < U64 := by
      simp only [List.map_cons, List.sum_cons] at hsum; omega
    simp only [collect64, List.mem_cons] at hs
    rcases hs with rfl | hs
    · obtain ⟨hpos, hv⟩ := hall e (List.mem_cons_self e es)
      simp only [segInvariant, SegmentData.from_addresses_and_size,
        Nat.mod_eq_of_lt hBe, Nat.mod_eq_of_lt hv]
      omega
    · have hcur : (B + e.size) % U64 = B + e.size := Nat.mod_eq_of_lt hBe
      rw [hcur] at hs
      have hsum2 : (B + e.size) + (es.map Mem64.size).sum < U64 := by
        simp only [List.map_cons, List.sum_cons] at hsum; omega
      exact ih (B + e.size) hsum2
        (fun e2 he2 => hall e2 (List.mem_cons_of_mem e he2)) s hs

/-! ### Claim theorems -/

/-- **C1** Segment Collector 64-bit path cumulative-offset correctness:
for a 64-bit memory-list stream whose raw record carries base offset `B`
as an 8-byte little-endian integer at byte offset 8, and whose typed
list contains entries with base addresses `a1..ak` and sizes `s1..sk`
in iteration order, the collector emits, in that order, one descriptor
per entry with file range `[B + s1 + ... + s(i-1), B + s1 + ... + si)`
and virtual range `[ai, ai + si)`; for every `i` the file range of entry
`i + 1` starts exactly where the file range of entry `i` ended.  (Stated
under no-u64-overflow bounds, since the Rust u64 additions would
otherwise wrap.) -/
theorem c1_collector64_cumulative_offset_correctness
    (raw : List Nat) (B : Nat) (es : List Mem64)
    (_hraw : read_base_rva raw = some B)
    (hsum : B + (es.map Mem64.size).sum < U64)
    (hvirt : ∀ e ∈ es, e.base_address + e.size < U64) :
    (collect64 B es).length = es.length ∧
    (∀ i, i < es.length →
      (collect64 B es).getD i default =
        { rva_range :=
            { start := B + sumSizesTo es i, stop := B + sumSizesTo es (i + 1) }
          mapped_addr_range :=
            { start := (es.getD i default).base_address
              stop :=
                (es.getD i default).base_address +
                  (es.getD i default).size } }) ∧
    (∀ i, i + 1 < es.length →
      ((collect64 B es).getD (i + 1) default).rva_range.start =
        ((collect64 B es).getD i default).rva_range.stop) := by
  refine ⟨collect64_length es B, ?_, ?_⟩
  · intro i hi
    have hmem : es.getD i default ∈ es := by
      rw [List.getD_eq_getElem es default hi]
      exact List.getElem_mem hi
    have hv := hvirt _ hmem
    rw [collect64_getD es B i hi hsum, Nat.mod_eq_of_lt hv]
  · intro i hi
    have hi0 : i < es.length := Nat.lt_of_succ_lt hi
    rw [collect64_getD es B (i + 1) hi hsum, collect64_getD es B i hi0 hsum]

/-- Witness for C1 at a concrete raw stream (base offset 0x2000 at byte
offset 8) and a concrete two-entry 64-bit list. -/
theorem c1_witness :
    read_base_rva [0, 0, 0, 0, 0, 0, 0, 0, 0, 32, 0, 0, 0, 0, 0, 0] =
      some 8192 ∧
    ((collect64 8192
        [⟨4194304, 4096⟩, ⟨139637976727552, 8192⟩]).getD 1 default).rva_range.start =
      ((collect64 8192
        [⟨4194304, 4096⟩, ⟨139637976727552, 8192⟩]).getD 0 default).rva_range.stop :=
  ⟨by decide,
    (c1_collector64_cumulative_offset_correctness
      [0, 0, 0, 0, 0, 0, 0, 0, 0, 32, 0, 0, 0, 0, 0, 0] 8192
      [⟨4194304, 4096⟩, ⟨139637976727552, 8192⟩]
      (by decide) (by decide) (by decide)).2.2 0 (by decide)⟩

/-- Counterexample for C2 as stated: with one 32-bit entry present but
an 8-byte raw 64-bit stream, the slice index at src/view.rs line 172
panics the whole construction, so the segment table never receives the
32-bit-derived entry — the first-N property is therefore not
independent of arbitrary 64-bit-list content. -/
theorem c2_counterexample :
    (init Option.some
      (⟨true, Endian.Little, some (Cpu.X86_64, Os.Windows),
        some [⟨4096, 4194304, 8192⟩], some [2, 0, 0, 0, 0, 0, 0, 0],
        none⟩ : Container)).1.segments = [] ∧
    (init Option.some
      (⟨true, Endian.Little, some (Cpu.X86_64, Os.Windows),
        some [⟨4096, 4194304, 8192⟩], some [2, 0, 0, 0, 0, 0, 0, 0],
        none⟩ : Container)).2 = Outcome.panic :=
  ⟨rfl, rfl⟩

/-- **C2** Segment Collector 32-bit path stream-order fidelity: for a
32-bit memory-region stream with `N` entries each carrying an explicit
`(rva, vaddr, size)`, the unified segment table's first `N` entries are
exactly the descriptors `(fileRange = [rva, rva + size), virtualRange =
[vaddr, vaddr + size))` of those entries, in iteration order,
independent of the 64-bit-list content, and they precede every
64-bit-list-derived entry.  (Stated under no-u64-overflow bounds on each
entry, and under the proviso that the raw 64-bit stream, when present,
is at least 16 bytes — a shorter one makes the whole construction panic,
see C5.) -/
theorem c2_collector32_stream_order_fidelity
    (by_name : String → Option String) (c : Container)
    (cpu : Cpu) (os : Os) (platform : String) (es32 : List Mem32)
    (hp : c.parse_ok = true)
    (hsys : c.system_info = some (cpu, os))
    (hplat : translate_minidump_platform by_name cpu c.endian os =
      some platform)
    (h32 : c.memory_list32 = some es32)
    (hbounds : ∀ e ∈ es32,
      e.rva + e.size < U64 ∧ e.base_address + e.size < U64)
    (h64 : ∀ raw, c.raw_stream64 = some raw → 16 ≤ raw.length) :
    (init by_name c).2 = Outcome.ok ∧
    ∃ rest,
      (init by_name c).1.segments =
        (es32.map fun e =>
          { rva_range := { start := e.rva, stop := e.rva + e.size }
            mapped_addr_range :=
              { start := e.base_address
                stop := e.base_address + e.size } }) ++ rest := by
  have hseg : seg32_of c = es32.map fun e =>
      { rva_range := { start := e.rva, stop := e.rva + e.size }
        mapped_addr_range :=
          { start := e.base_address,
            stop := e.base_address + e.size } } := by
    simp [seg32_of, h32, collect32_eq_of_no_overflow es32 hbounds]
  match hraw : c.raw_stream64 with
  | none =>
    refine ⟨by simp [init, hp, hsys, hplat, hraw], [], ?_⟩
    simp [init, hp, hsys, hplat, hraw, hseg]
  | some raw =>
    have hlen := h64 raw hraw
    have hrb : read_base_rva raw =
        some (u64_from_le_bytes ((raw.drop 8).take 8)) := by
      simp [read_base_rva, hlen]
    refine ⟨by simp [init, hp, hsys, hplat, hraw, hrb],
      seg64_of c (u64_from_le_bytes ((raw.drop 8).take 8)), ?_⟩
    simp [init, hp, hsys, hplat, hraw, hrb, hseg]

/-- Witness for C2: a container with one 32-bit entry
`(rva = 0x1000, vaddr = 0x400000, size = 0x2000)` (the spec's scenario
1) yields a table whose first entry is `⟨[0x1000, 0x3000),
[0x400000, 0x402000)⟩`. -/
theorem c2_witness :
    (init Option.some
      (⟨true, Endian.Little, some (Cpu.X86_64, Os.Windows),
        some [⟨4096, 4194304, 8192⟩], none, none⟩ : Container)).2 =
      Outcome.ok ∧
    ∃ rest,
      (init Option.some
        (⟨true, Endian.Little, some (Cpu.X86_64, Os.Windows),
          some [⟨4096, 4194304, 8192⟩], none, none⟩ : Container)).1.segments =
        [⟨⟨4096, 12288⟩, ⟨4194304, 4202496⟩⟩] ++ rest :=
  c2_collector32_stream_order_fidelity Option.some
    ⟨true, Endian.Little, some (Cpu.X86_64, Os.Windows),
      some [⟨4096, 4194304, 8192⟩], none, none⟩
    Cpu.X86_64 Os.Windows "windows-x86_64" [⟨4096, 4194304, 8192⟩]
    rfl rfl rfl rfl (by decide) (fun raw h => nomatch h)

/-- **C3** Platform Resolver table completeness and totality: provided
the host registry recognizes every identifier, `resolve(cpu, endian,
os)` returns a platform for exactly the supported pairs — (Windows or
macOS or Linux) with (Arm64, Arm, X86, X86_64), plus Linux with (Ppc,
Ppc64) — and returns none for every other (os, cpu) combination,
including Android, iOS, PS3, NaCl, Solaris, and unrecognized/future OS
or CPU values. -/
theorem c3_resolver_table_completeness
    (by_name : String → Option String)
    (hreg : ∀ s, (by_name s).isSome = true)
    (cpu : Cpu) (endian : Endian) (os : Os) :
    (translate_minidump_platform by_name cpu endian os).isSome = true ↔
      ((os = Os.Windows ∨ os = Os.MacOs ∨ os = Os.Linux) ∧
        (cpu = Cpu.Arm64 ∨ cpu = Cpu.Arm ∨ cpu = Cpu.X86 ∨
          cpu = Cpu.X86_64)) ∨
      (os = Os.Linux ∧ (cpu = Cpu.Ppc ∨ cpu = Cpu.Ppc64)) := by
  cases os <;> cases cpu <;> cases endian <;>
    simp [translate_minidump_platform, hreg]

/-- Witness for C3 with the everywhere-defined registry `Option.some`,
at the PowerPC-on-Linux pair (supported) and at the x86-on-Android pair
(unsupported). -/
theorem c3_witness :
    (translate_minidump_platform Option.some Cpu.Ppc Endian.Little
      Os.Linux).isSome = true ∧
    ¬ (translate_minidump_platform Option.some Cpu.X86 Endian.Little
      Os.Android).isSome = true :=
  ⟨(c3_resolver_table_completeness Option.some (fun s => rfl) Cpu.Ppc
      Endian.Little Os.Linux).mpr (Or.inr ⟨rfl, Or.inl rfl⟩),
    fun h =>
      by simpa using
        (c3_resolver_table_completeness Option.some (fun s => rfl) Cpu.X86
          Endian.Little Os.Android).mp h⟩

/-- **C4** Fatal-failure atomicity of construction: `init` fails
(returns `Err`) exactly when the container cannot be parsed, the
system-info stream is absent, or the (cpu, endian, os) triple does not
resolve to a platform; in every such fatal case nothing has been applied
to the view — no default platform is set and no segment is
registered. -/
theorem c4_fatal_failure_atomicity
    (by_name : String → Option String) (c : Container) :
    ((init by_name c).2 = Outcome.err ↔
      c.parse_ok = false ∨
      (c.parse_ok = true ∧ c.system_info = none) ∨
      (c.parse_ok = true ∧ ∃ cpu os, c.system_info = some (cpu, os) ∧
        translate_minidump_platform by_name cpu c.endian os = none)) ∧
    ((init by_name c).2 = Outcome.err →
      (init by_name c).1 = ⟨none, []⟩) := by
  match hp : c.parse_ok with
  | false => simp [init, hp]
  | true =>
    match hsys : c.system_info with
    | none => simp [init, hp, hsys]
    | some (cpu, os) =>
      match htr : translate_minidump_platform by_name cpu c.endian os with
      | none =>
        simp [init, hp, hsys, htr]
        exact ⟨cpu, os, ⟨rfl, rfl⟩, htr⟩
      | some p =>
        match hraw : c.raw_stream64 with
        | none => simp [init, hp, hsys, htr, hraw]
        | some raw =>
          match hb : read_base_rva raw with
          | none => simp [init, hp, hsys, htr, hraw, hb]
          | some B => simp [init, hp, hsys, htr, hraw, hb]

/-- Witness for C4 at the spec's scenario 2: a parseable container with
an unrecognized OS value fails with no platform set and no segments
registered. -/
theorem c4_witness :
    (init Option.some
      (⟨true, Endian.Little, some (Cpu.X86_64, Os.Unknown 999), none, none,
        none⟩ : Container)).2 = Outcome.err ∧
    (init Option.some
      (⟨true, Endian.Little, some (Cpu.X86_64, Os.Unknown 999), none, none,
        none⟩ : Container)).1 = ⟨none, []⟩ :=
  have h :=
    (c4_fatal_failure_atomicity Option.some
      ⟨true, Endian.Little, some (Cpu.X86_64, Os.Unknown 999), none, none,
        none⟩).1.mpr
      (Or.inr (Or.inr ⟨rfl, ⟨Cpu.X86_64, Os.Unknown 999, rfl, rfl⟩⟩))
  ⟨h,
    (c4_fatal_failure_atomicity Option.some
      ⟨true, Endian.Little, some (Cpu.X86_64, Os.Unknown 999), none, none,
        none⟩).2 h⟩

/-- **C5** (code bug) The 64-bit path is NOT panic-free for every
present-but-malformed raw stream: at src/view.rs line 172 the slice
index `raw_stream[8..16]` panics whenever the raw 64-bit memory-list
stream holds fewer than 16 bytes.  This theorem evaluates the embedded
`init` on a container whose raw 64-bit stream is 8 bytes long: the
outcome is the panic, and no segment is registered. -/
theorem c5_short_raw_stream_panics :
    (init Option.some
      (⟨true, Endian.Little, some (Cpu.X86_64, Os.Windows), none,
        some [1, 0, 0, 0, 0, 0, 0, 0], none⟩ : Container)).2 =
      Outcome.panic ∧
    (init Option.some
      (⟨true, Endian.Little, some (Cpu.X86_64, Os.Windows), none,
        some [1, 0, 0, 0, 0, 0, 0, 0], none⟩ : Container)).1.segments =
      [] :=
  ⟨rfl, rfl⟩

/-- Counterexample for C6: a 64-bit entry of size 0 is materialized by
the collector as a descriptor whose ranges are empty, so the claimed
`size > 0` invariant fails on the code. -/
theorem c6_counterexample :
    collect64 8192 [⟨4194304, 0⟩] = [⟨⟨8192, 8192⟩, ⟨4194304, 4194304⟩⟩] ∧
    (segInvariant ⟨⟨8192, 8192⟩, ⟨4194304, 4194304⟩⟩ ↔ False) := by
  refine ⟨by decide, ?_⟩
  simp [segInvariant]

/-- **C6** (amended) SegmentDescriptor invariant: every descriptor
materialized by either collector path from entries of positive size
satisfies `fileRange.stop - fileRange.start = virtualRange.stop -
virtualRange.start > 0` (equal positive lengths), provided the u64
additions involved do not wrap; an entry of size 0 is materialized as a
descriptor with empty ranges. -/
theorem c6_amended_descriptor_invariant
    (es32 : List Mem32) (B : Nat) (es64 : List Mem64)
    (h32 : ∀ e ∈ es32,
      0 < e.size ∧ e.rva + e.size < U64 ∧ e.base_address + e.size < U64)
    (hsum : B + (es64.map Mem64.size).sum < U64)
    (h64 : ∀ e ∈ es64, 0 < e.size ∧ e.base_address + e.size < U64) :
    ∀ s ∈ collect32 es32 ++ collect64 B es64, segInvariant s := by
  intro s hs
  rcases List.mem_append.mp hs with h | h
  · obtain ⟨e, he, rfl⟩ := List.mem_map.mp h
    obtain ⟨hpos, h1, h2⟩ := h32 e he
    simp only [segInvariant, SegmentData.from_addresses_and_size,
      Nat.mod_eq_of_lt h1, Nat.mod_eq_of_lt h2]
    omega
  · exact collect64_segInvariant es64 B hsum h64 s h

/-- Witness for C6 (amended): one positive-size entry per path; the
32-bit-derived descriptor satisfies the invariant. -/
theorem c6_witness :
    segInvariant ⟨⟨4096, 12288⟩, ⟨4194304, 4202496⟩⟩ :=
  c6_amended_descriptor_invariant [⟨4096, 4194304, 8192⟩] 8192
    [⟨139637976727552, 4096⟩] (by decide) (by decide) (by decide)
    ⟨⟨4096, 12288⟩, ⟨4194304, 4202496⟩⟩ (by decide)

/-- **C7** Byte-order irrelevance outside Linux/PowerPC: for every
(cpu, os) pair other than (Ppc, Linux) and (Ppc64, Linux), the resolver
gives the same result for little and big byte order; for the two
PowerPC-on-Linux cases byte order selects between the little-endian and
big-endian platform identifier. -/
theorem c7_byte_order_irrelevance
    (by_name : String → Option String) (cpu : Cpu) (os : Os)
    (h : ¬(os = Os.Linux ∧ (cpu = Cpu.Ppc ∨ cpu = Cpu.Ppc64))) :
    translate_minidump_platform by_name cpu Endian.Little os =
      translate_minidump_platform by_name cpu Endian.Big os ∧
    translate_minidump_platform by_name Cpu.Ppc Endian.Little Os.Linux =
      by_name "linux-ppc32_le" ∧
    translate_minidump_platform by_name Cpu.Ppc Endian.Big Os.Linux =
      by_name "linux-ppc32" ∧
    translate_minidump_platform by_name Cpu.Ppc64 Endian.Little Os.Linux =
      by_name "linux-ppc64_le" ∧
    translate_minidump_platform by_name Cpu.Ppc64 Endian.Big Os.Linux =
      by_name "linux-ppc64" := by
  refine ⟨?_, rfl, rfl, rfl, rfl⟩
  cases os <;> cases cpu <;> simp_all [translate_minidump_platform]

/-- Witness for C7 at (X86_64, Windows), plus the little-endian
PowerPC-on-Linux selection, with the registry `Option.some`. -/
theorem c7_witness :
    translate_minidump_platform Option.some Cpu.X86_64 Endian.Little
      Os.Windows =
      translate_minidump_platform Option.some Cpu.X86_64 Endian.Big
        Os.Windows ∧
    translate_minidump_platform Option.some Cpu.Ppc Endian.Little
      Os.Linux = some "linux-ppc32_le" :=
  ⟨(c7_byte_order_irrelevance Option.some Cpu.X86_64 Os.Windows
      (by decide)).1,
    (c7_byte_order_irrelevance Option.some Cpu.X86_64 Os.Windows
      (by decide)).2.1⟩

/-- **C8** Container Type Detector accept-iff-signature: for every
input, the detector accepts if and only if the first 4 bytes equal the
ASCII signature `MDMP`, regardless of any trailing content; inputs
shorter than 4 bytes (short reads yielding fewer or zero bytes) are
rejected, and the read never goes past the available bytes. -/
theorem c8_detector_accept_iff_signature (data : List Nat) :
    (is_valid_for data = true ↔ data.take 4 = mdmpSignature) ∧
    (data.length < 4 → is_valid_for data = false) := by
  have hiff : is_valid_for data = true ↔ data.take 4 = mdmpSignature := by
    simp [is_valid_for, read_into_vec, List.drop_zero]
  refine ⟨hiff, fun hlen => ?_⟩
  by_contra hne
  have hv : is_valid_for data = true := by simpa using hne
  have htake := hiff.mp hv
  have hl : (data.take 4).length = 4 := by rw [htake]; rfl
  simp only [List.length_take] at hl
  omega

/-- Witness for C8: a 8-byte input starting with `MDMP` is accepted
regardless of its trailing content; a 3-byte input (short read) is
rejected. -/
theorem c8_witness :
    is_valid_for [77, 68, 77, 80, 0, 1, 2, 3] = true ∧
    is_valid_for [77, 68, 77] = false :=
  ⟨(c8_detector_accept_iff_signature [77, 68, 77, 80, 0, 1, 2, 3]).1.mpr
      (by decide),
    (c8_detector_accept_iff_signature [77, 68, 77]).2 (by decide)⟩

/-- **C9** Degraded success with no memory lists: for a container whose
system-info stream is present and resolves to a platform but whose
32-bit and 64-bit memory-list streams are both absent, construction
succeeds, the resolved platform is set as the view's default platform,
and zero segments are registered. -/
theorem c9_degraded_success_no_memory_lists
    (by_name : String → Option String) (c : Container)
    (cpu : Cpu) (os : Os) (platform : String)
    (hp : c.parse_ok = true)
    (hsys : c.system_info = some (cpu, os))
    (hplat : translate_minidump_platform by_name cpu c.endian os =
      some platform)
    (h32 : c.memory_list32 = none)
    (h64 : c.raw_stream64 = none) :
    init by_name c = (⟨some platform, []⟩, Outcome.ok) := by
  simp [init, hp, hsys, hplat, h64, seg32_of, h32]

/-- Witness for C9 at the spec's scenario 4 with (Arm64, macOS). -/
theorem c9_witness :
    init Option.some
      (⟨true, Endian.Little, some (Cpu.Arm64, Os.MacOs), none, none,
        none⟩ : Container) =
      (⟨some "mac-aarch64", []⟩, Outcome.ok) :=
  c9_degraded_success_no_memory_lists Option.some
    ⟨true, Endian.Little, some (Cpu.Arm64, Os.MacOs), none, none, none⟩
    Cpu.Arm64 Os.MacOs "mac-aarch64" rfl rfl rfl rfl rfl

/-- **C10** Constant view attributes: for every constructed view,
regardless of the dump's content, the reported address size is 0, the
reported entry point is 0, and the reported default endianness is
little-endian — including for dumps whose system info records a
big-endian byte order, since none of the three accessors consults the
view at all. -/
theorem c10_constant_view_attributes (v : MinidumpBinaryView) :
    v.address_size = 0 ∧ v.entry_point = 0 ∧
    v.default_endianness = Endianness.LittleEndian :=
  ⟨rfl, rfl, rfl⟩

end Minidump
